import Mathlib

/-!
# AutoDeployer pipeline — verification of the deployment runner

Shallow embedding of the pipeline core of `src/src/App.tsx` (the
`AutoDeployer` React component).  The embedded part is the state the
component keeps (`projectName`, `code`, `isDeploying`, `deployedUrl`,
`logs`, `steps`), the two mutators `addLog` and `updateStep`, the
project-name normalization performed by the input handler, and the
`handleDeploy` routine (lines 158–219).  The `code` textarea state is
not modelled: `handleDeploy` never reads it, so it cannot influence any
claim about the pipeline.

`handleDeploy` is a linear script: a re-entrancy guard, a reset, and a
fixed sequence of `updateStep` / `addLog` mutations separated by nine
`await new Promise(r => setTimeout(r, …))` suspension points, wrapped in
`try { … } catch { addLog(…, 'error') } finally { setIsDeploying(false) }`.
The only way the `catch` can run is a rejection at one of the nine
`await`s (none of the synchronous mutations can throw), so a run is
modelled as the action sequence of the `try` block truncated at a chosen
`await` (`fault : Option (Fin 9)`), followed by the `catch` log when a
fault occurred, followed by the `finally` flag clear.

The four `set*` calls of the reset (lines 160–163) execute back-to-back
in one synchronous React event handler, so no intermediate mixed state is
ever observable; the reset is therefore modelled as one atomic state
update.  `LogEntry.timestamp` (wall-clock `toLocaleTimeString`) is
presentation data and is not modelled.
-/

namespace AutoDeployer

set_option maxHeartbeats 4000000

/-- `type StepStatus = 'idle' | 'loading' | 'error' | 'success'` (App.tsx line 19).
The spec calls `loading` "running". -/
inductive StepStatus where
  | idle
  | loading
  | success
  | error
deriving DecidableEq

/-- `LogEntry.type` values (App.tsx line 30). -/
inductive LogType where
  | info
  | success
  | error
  | warning
deriving DecidableEq

/-- App.tsx lines 27–31, without the wall-clock `timestamp` field. -/
structure LogEntry where
  message : String
  type : LogType
deriving DecidableEq

/-- App.tsx lines 21–25. -/
structure Step where
  id : String
  label : String
  status : StepStatus
deriving DecidableEq

/-- The component state relevant to the pipeline (App.tsx lines 126–147;
the unread `code` state is omitted, see the file header). -/
structure AppState where
  projectName : String
  isDeploying : Bool
  deployedUrl : Option String
  logs : List LogEntry
  steps : List Step
deriving DecidableEq

/-- `addLog` (App.tsx lines 149–152): append one entry to the log list. -/
def addLog (message : String) (type : LogType) : AppState → AppState
  | ⟨pn, dep, url, logs, steps⟩ => ⟨pn, dep, url, logs ++ [⟨message, type⟩], steps⟩

/-- `updateStep` (App.tsx lines 154–156): set the status of the step with
the given id, leaving every other step unchanged. -/
def updateStep (id : String) (status : StepStatus) : AppState → AppState
  | ⟨pn, dep, url, logs, steps⟩ =>
      ⟨pn, dep, url, logs, steps.map fun s => if s.id = id then { s with status } else s⟩

/-- The URL built at App.tsx line 208: `https://${projectName}.vercel.app`. -/
def deployUrl (projectName : String) : String :=
  "https://" ++ projectName ++ ".vercel.app"

/-- One atomic mutation of the `handleDeploy` script.  `wait` marks an
`await new Promise(r => setTimeout(r, …))` suspension point (a state
observation point where a rejection could interrupt the run); `finish` is
the `finally { setIsDeploying(false) }` clause. -/
inductive Action where
  | setStep (id : String) (status : StepStatus)
  | log (message : String) (type : LogType)
  | wait
  | setUrl
  | finish

/-- Effect of one action on the component state (each constructor maps to
the source call it names; `setUrl` is `setDeployedUrl(url)` at line 212,
with `url` built from the run's `projectName`). -/
def execAction (st : AppState) (a : Action) : AppState :=
  match a with
  | .setStep id status => updateStep id status st
  | .log m t => addLog m t st
  | .wait => st
  | .setUrl =>
      match st with
      | ⟨pn, dep, _, logs, steps⟩ => ⟨pn, dep, some (deployUrl pn), logs, steps⟩
  | .finish =>
      match st with
      | ⟨pn, _, url, logs, steps⟩ => ⟨pn, false, url, logs, steps⟩

/-- The body of the `try` block of `handleDeploy` (App.tsx lines 165–212),
action by action, in source order.  The nine `wait`s are the nine
`await`s at lines 169, 171, 178, 180, 187, 190, 197, 200, 207. -/
def tryActions (projectName : String) : List Action :=
  [ -- Step 1: Validate (lines 166–173)
    .setStep "validate" .loading,
    .log "Starting deployment process..." .info,
    .wait,
    .log "Analyzing dependency tree..." .info,
    .wait,
    .log "Code validation successful. Bundle size: 42KB" .success,
    .setStep "validate" .success,
    -- Step 2: GitHub (lines 175–182)
    .setStep "github" .loading,
    .log "Connecting to GitHub API..." .info,
    .wait,
    .log ("Creating repository \x27" ++ projectName ++ "\x27...") .info,
    .wait,
    .log ("Repository created: github.com/user/" ++ projectName) .success,
    .setStep "github" .success,
    -- Step 3: Push (lines 184–192)
    .setStep "push" .loading,
    .log "Initializing git..." .info,
    .wait,
    .log "Staging files..." .info,
    .log "Committing: \"Initial commit\"" .info,
    .wait,
    .log "Pushing to origin/main..." .success,
    .setStep "push" .success,
    -- Step 4: Vercel (lines 194–202)
    .setStep "vercel" .loading,
    .log "Triggering Vercel deployment hook..." .info,
    .wait,
    .log "Build started in container i-0a1b2c..." .info,
    .log "Installing dependencies..." .info,
    .wait,
    .log "Build completed in 2.4s" .success,
    .setStep "vercel" .success,
    -- Step 5: Live (lines 204–212)
    .setStep "live" .loading,
    .log "Assigning domains..." .info,
    .wait,
    .log ("Deployment active at " ++ deployUrl projectName) .success,
    .setStep "live" .success,
    .setUrl ]

/-- Truncate an action list at its `n`-th `wait` (0-based): the actions
executed by the `try` block when that `await` rejects.  The rejecting
`wait` itself and everything after it are dropped. -/
def truncAtWait : List Action → Nat → List Action
  | [], _ => []
  | .wait :: _, 0 => []
  | .wait :: rest, n + 1 => Action.wait :: truncAtWait rest n
  | a :: rest, n => a :: truncAtWait rest n

/-- The `catch` block's log entry (App.tsx line 215). -/
def catchMessage : String := "An unexpected error occurred during deployment."

/-- All mutations a run performs after its reset: the `try` body (whole,
or cut at the faulting `await` followed by the `catch` log), then the
`finally` clause. -/
def runActions (fault : Option (Fin 9)) (projectName : String) : List Action :=
  match fault with
  | none => tryActions projectName ++ [.finish]
  | some k => truncAtWait (tryActions projectName) k.val
      ++ [.log catchMessage .error, .finish]

/-- The reset performed at the top of `handleDeploy` (App.tsx lines
160–163): `setIsDeploying(true); setDeployedUrl(null); setLogs([]);
setSteps(steps.map(s => ({...s, status: 'idle'})))`, modelled as one
atomic update (see the file header). -/
def resetRun : AppState → AppState
  | ⟨pn, _, _, _, steps⟩ =>
      ⟨pn, true, none, [], steps.map fun s => { s with status := StepStatus.idle }⟩

/-- `handleDeploy` (App.tsx lines 158–219): the re-entrancy guard at line
159, then the reset, then the run's mutations in order, for the given
fault schedule. -/
def handleDeploy (fault : Option (Fin 9)) (st : AppState) : AppState :=
  if st.isDeploying then st
  else (runActions fault st.projectName).foldl execAction (resetRun st)

/-- Every state a run makes observable, in order: the post-reset state
followed by the state after each mutation (the states visible at the
`await` suspension points and after the final `finally`).  A start
request issued while `isDeploying` mutates nothing, so its only
observable state is the state itself. -/
def runTrace (fault : Option (Fin 9)) (st : AppState) : List AppState :=
  if st.isDeploying then [st]
  else (runActions fault st.projectName).scanl execAction (resetRun st)

/-- The stage registry (App.tsx lines 141–147) with the given statuses. -/
def stepsWith (a b c d e : StepStatus) : List Step :=
  [ ⟨"validate", "Validate & Bundle Code", a⟩,
    ⟨"github", "Create GitHub Repository", b⟩,
    ⟨"push", "Push to Main Branch", c⟩,
    ⟨"vercel", "Deploy to Vercel", d⟩,
    ⟨"live", "Verify Live URL", e⟩ ]

/-- A component state that is not mid-run, with the registry's steps
carrying arbitrary statuses. -/
def stateWith (pn : String) (url : Option String) (lg : List LogEntry)
    (a b c d e : StepStatus) : AppState :=
  { projectName := pn
    isDeploying := false
    deployedUrl := url
    logs := lg
    steps := stepsWith a b c d e }

/-- The component's mount state (App.tsx lines 126–147), with the project
name it holds at deploy time (the default is `"my-awesome-app"`; any
value typed through the input handler is already normalized). -/
def initState (pn : String) : AppState :=
  stateWith pn none [] .idle .idle .idle .idle .idle

/-- The stage (0-based registry index) whose executor is interrupted when
the `k`-th `await` rejects: awaits 0–1 belong to stage 0, 2–3 to stage 1,
4–5 to stage 2, 6–7 to stage 3, 8 to stage 4. -/
def stageOfAwait (k : Fin 9) : Nat := k.val / 2

/-- Number of steps currently in the `loading` status. -/
def loadingCount (st : AppState) : Nat :=
  st.steps.countP fun s => s.status == StepStatus.loading

/-- Number of `error`-typed entries in the log. -/
def errorLogCount (st : AppState) : Nat :=
  st.logs.countP fun e => e.type == LogType.error

/-- The statuses of the five steps, in registry order. -/
def statusesOf (st : AppState) : List StepStatus :=
  st.steps.map fun s => s.status

/-- Number of steps whose status equals the given one. -/
def statusCount (status : StepStatus) (st : AppState) : Nat :=
  st.steps.countP fun s => s.status == status

/-! ## Project-name normalization (App.tsx line 264)

The input handler stores `e.target.value.toLowerCase().replace(/\s+/g, '-')`.
`toLowerCase` is modelled as a character-wise lowercasing, and the regex
replacement as a fold that rewrites every maximal run of whitespace
characters to a single hyphen.  `isWs` models the ASCII portion of the
regex class `\s`. -/

/-- Whitespace as matched by `\s` (ASCII range). -/
def isWs (c : Char) : Bool :=
  c == ' ' || c == '\t' || c == '\n' || c == '\r' || c == '\x0b' || c == '\x0c'

/-- `String.prototype.toLowerCase`, character-wise. -/
def lowerStr (s : String) : String :=
  ⟨s.data.map Char.toLower⟩

/-- `replace(/\s+/g, '-')` on a character list: the flag records whether
the previous character was whitespace, so a whole run yields one hyphen. -/
def collapseWs : Bool → List Char → List Char
  | _, [] => []
  | prevWs, c :: rest =>
    if isWs c then
      if prevWs then collapseWs true rest
      else '-' :: collapseWs true rest
    else c :: collapseWs false rest

/-- The full normalization of App.tsx line 264. -/
def normalizeName (s : String) : String :=
  ⟨collapseWs false (lowerStr s).data⟩

/-- The project-name input handler (App.tsx lines 261–267): store the
normalized value in `projectName`. -/
def onProjectNameInput (raw : String) (st : AppState) : AppState :=
  { st with projectName := normalizeName raw }

/-! ## Transition checker for the stage state machine

`transOk prev next` holds when the two consecutive status snapshots are
equal, or differ in exactly one position `j` by an allowed transition
(`idle → loading` or `loading → success`) while every earlier stage is
`success` and every later stage is `idle` in both snapshots.  A chain of
such transitions from the all-`idle` snapshot is exactly the temporal
discipline of §4.1 of the spec: every stage passes through `loading`
before a terminal status, no stage is entered twice, and a later stage
never moves before all earlier stages are terminal. -/

/-- The two stage transitions the runner may perform. -/
def okChange (p q : StepStatus) : Bool :=
  (p == StepStatus.idle && q == StepStatus.loading)
    || (p == StepStatus.loading && q == StepStatus.success)

/-- One observable step of the stage state machine (see section header). -/
def transOk (prev next : List StepStatus) : Bool :=
  (prev == next) ||
  ((prev.length == next.length) &&
    ((List.range prev.length).any fun j =>
      okChange (prev.getD j StepStatus.idle) (next.getD j StepStatus.idle)
      && ((List.range prev.length).all fun i =>
        if i < j then
          (prev.getD i StepStatus.idle == StepStatus.success)
            && (next.getD i StepStatus.idle == StepStatus.success)
        else if i == j then true
        else
          (prev.getD i StepStatus.idle == StepStatus.idle)
            && (next.getD i StepStatus.idle == StepStatus.idle))))

/-- `transOk` along a whole list of consecutive snapshots. -/
def chainOk : List (List StepStatus) → Bool
  | [] => true
  | [_] => true
  | a :: b :: rest => transOk a b && chainOk (b :: rest)


/-! ## General lemmas -/

/-- Every action leaves the log list a prefix of the resulting one: the
log is only ever appended to. -/
theorem logs_extend (st : AppState) (a : Action) :
    st.logs <+: (execAction st a).logs := by
  obtain ⟨pn, dep, url, logs, steps⟩ := st
  cases a with
  | log m t => exact List.prefix_append _ _
  | setStep id status => exact List.prefix_rfl
  | wait => exact List.prefix_rfl
  | setUrl => exact List.prefix_rfl
  | finish => exact List.prefix_rfl

/-- Along the states produced by any action sequence, each log list is a
prefix of the next one. -/
theorem chain_logs_scanl (acts : List Action) (st : AppState) :
    List.Chain' (fun a b => a.logs <+: b.logs) (List.scanl execAction st acts) := by
  induction acts generalizing st with
  | nil => simp
  | cons a rest ih =>
    rw [List.scanl_cons, List.singleton_append]
    cases rest with
    | nil =>
      rw [List.scanl_nil]
      exact List.chain'_pair.mpr (logs_extend st a)
    | cons b rest' =>
      have tail := ih (execAction st a)
      rw [List.scanl_cons, List.singleton_append] at tail
      rw [List.scanl_cons, List.singleton_append, List.chain'_cons]
      exact ⟨logs_extend st a, tail⟩

/-- Every character produced by `collapseWs` is non-whitespace: it is
either the hyphen replacing a run, or a character the whitespace test
rejected. -/
theorem collapseWs_no_ws (l : List Char) :
    ∀ b : Bool, ((collapseWs b l).all fun c => !isWs c) = true := by
  induction l with
  | nil => intro b; rfl
  | cons c rest ih =>
    intro b
    by_cases h : isWs c = true
    · cases b with
      | true => simpa [collapseWs, h] using ih true
      | false =>
        have hyph : (!isWs '-') = true := by decide
        simp [collapseWs, h, hyph, ih true]
    · have h' : isWs c = false := eq_false_of_ne_true h
      simp [collapseWs, h', ih false]

/-! ## The claims -/

/-- C1 counterexample: in the run whose stage-2 (repository creation)
executor fails (fault at the fourth `await`, the one inside the GitHub
stage), the failed stage ends in status `loading`, not `error`: no step
of the final state carries status `error`, although the run did end
(`isDeploying = false`) without a result.  The claim requires the failed
stage's status to be set to `error`. -/
theorem c1_counterexample :
    statusesOf (handleDeploy (some 3) (initState "name-taken-demo"))
      = [StepStatus.success, StepStatus.loading, StepStatus.idle,
         StepStatus.idle, StepStatus.idle]
    ∧ ((handleDeploy (some 3) (initState "name-taken-demo")).steps.all
        fun s => !(s.status == StepStatus.error)) = true
    ∧ (handleDeploy (some 3) (initState "name-taken-demo")).isDeploying = false
    ∧ (handleDeploy (some 3) (initState "name-taken-demo")).deployedUrl = none :=
  of_decide_eq_true rfl

/-- C1 amended: for every run in which a stage's executor fails (a
rejection at the `k`-th `await`), the runner appends exactly one
`error`-kind log entry, executes no subsequent stage (every stage after
the failed one keeps status `idle`, every stage before it keeps
`success`), leaves the result absent, and ends the run with
`running = false` — but the failed stage keeps status `loading` instead
of being set to `error`. -/
theorem c1_amended (pn : String) :
    ∀ k : Fin 9,
      errorLogCount (handleDeploy (some k) (initState pn)) = 1
      ∧ statusesOf (handleDeploy (some k) (initState pn))
          = (List.range 5).map (fun i =>
              if i < stageOfAwait k then StepStatus.success
              else if i = stageOfAwait k then StepStatus.loading
              else StepStatus.idle)
      ∧ (handleDeploy (some k) (initState pn)).deployedUrl = none
      ∧ (handleDeploy (some k) (initState pn)).isDeploying = false :=
  of_decide_eq_true rfl

/-- C2: in the run where all five stages reach `success` (the fault-free
run), the result is present and equals `https://<projectName>.vercel.app`;
every observable state in which the result is present already has the
last stage in `success` (the result is set only after the last stage's
transition); and the running flag is `true` in every observable state of
the run except the very last one, where it becomes `false` (so it becomes
false exactly once, after the last transition). -/
theorem c2_full_success (pn : String) :
    (handleDeploy none (initState pn)).deployedUrl
        = some ("https://" ++ pn ++ ".vercel.app")
    ∧ statusesOf (handleDeploy none (initState pn))
        = List.replicate 5 StepStatus.success
    ∧ ((runTrace none (initState pn)).all fun s =>
        !s.deployedUrl.isSome
          || ((statusesOf s).getD 4 StepStatus.idle == StepStatus.success)) = true
    ∧ (runTrace none (initState pn)).map (fun s => s.isDeploying)
        = List.replicate 37 true ++ [false] :=
  ⟨rfl, of_decide_eq_true rfl, of_decide_eq_true rfl, of_decide_eq_true rfl⟩

/-- C3: a start request issued while `running = true` is a complete
no-op: the resulting state is the very state the request found, and the
request makes no intermediate state observable (no stage reset, no log
cleared or appended, result untouched). -/
theorem c3_reentrancy_guard (fault : Option (Fin 9)) (st : AppState)
    (h : st.isDeploying = true) :
    handleDeploy fault st = st ∧ runTrace fault st = [st] := by
  constructor
  · simp [handleDeploy, h]
  · simp [runTrace, h]

/-- C3 witness: the guard at a concrete mid-run state. -/
theorem c3_reentrancy_guard_witness :
    ({ initState "busy" with isDeploying := true } : AppState).isDeploying = true
    ∧ (handleDeploy none { initState "busy" with isDeploying := true }
        = { initState "busy" with isDeploying := true }
      ∧ runTrace none { initState "busy" with isDeploying := true }
        = [{ initState "busy" with isDeploying := true }]) :=
  ⟨rfl, c3_reentrancy_guard none _ rfl⟩

/-- C4: in every observable state of every run — any fault schedule,
started from any not-mid-run component state carrying the stage registry
with arbitrary statuses, log, and result — at most one stage has status
`loading` (the spec's "running"). -/
theorem c4_at_most_one_loading (pn : String) (url : Option String)
    (lg : List LogEntry) (a b c d e : StepStatus) :
    ∀ fault : Option (Fin 9),
      ((runTrace fault (stateWith pn url lg a b c d e)).all
        fun s => decide (loadingCount s ≤ 1)) = true :=
  of_decide_eq_true rfl

/-- C5 counterexample: the run interrupted at the first `await` reaches a
terminal state (`running = false`) in which the counts of `success`,
`error` and `idle` stages sum to 4, not 5 — the first stage is left in
status `loading` at run end, contradicting the claim. -/
theorem c5_counterexample :
    (handleDeploy (some 0) (initState "demo")).isDeploying = false
    ∧ ¬ (statusCount StepStatus.success (handleDeploy (some 0) (initState "demo"))
        + statusCount StepStatus.error (handleDeploy (some 0) (initState "demo"))
        + statusCount StepStatus.idle (handleDeploy (some 0) (initState "demo")) = 5) :=
  of_decide_eq_true rfl

/-- C5 amended: at the end of a fault-free run the counts of `success`,
`error` and `idle` stages sum to five (all five are `success`); at the
end of a faulted run they sum to four, because exactly one stage — the
one whose executor was interrupted — remains in status `loading`. -/
theorem c5_amended (pn : String) :
    (statusCount StepStatus.success (handleDeploy none (initState pn))
      + statusCount StepStatus.error (handleDeploy none (initState pn))
      + statusCount StepStatus.idle (handleDeploy none (initState pn)) = 5)
    ∧ ∀ k : Fin 9,
        (statusCount StepStatus.success (handleDeploy (some k) (initState pn))
          + statusCount StepStatus.error (handleDeploy (some k) (initState pn))
          + statusCount StepStatus.idle (handleDeploy (some k) (initState pn)) = 4)
        ∧ statusCount StepStatus.loading (handleDeploy (some k) (initState pn)) = 1 :=
  of_decide_eq_true rfl

/-- C6: in every observable state of every run no stage ever carries
status `error` (so the only statuses taken are `idle`, `loading` and
`success`); and when an exception interrupts a run at any `await`, the
stage that was `loading` still has status `loading` in the final state,
which has `running = false`. -/
theorem c6_no_error_status (pn : String) :
    (∀ fault : Option (Fin 9),
      ((runTrace fault (initState pn)).all
        fun s => s.steps.all fun t => !(t.status == StepStatus.error)) = true)
    ∧ ∀ k : Fin 9,
        (handleDeploy (some k) (initState pn)).isDeploying = false
        ∧ (statusesOf (handleDeploy (some k) (initState pn))).getD (stageOfAwait k)
            StepStatus.idle = StepStatus.loading :=
  of_decide_eq_true rfl

/-- C7: every run ended by a caught fault (a rejection at any of the nine
suspension points — the code attributes no fault to a stage, every caught
fault takes the single generic `catch` path) appends exactly one
`error`-kind log entry, ends with `running = false`, leaves the result
absent, and leaves no stage in status `error`. -/
theorem c7_orchestration_fault (pn : String) :
    ∀ k : Fin 9,
      errorLogCount (handleDeploy (some k) (initState pn)) = 1
      ∧ (handleDeploy (some k) (initState pn)).isDeploying = false
      ∧ (handleDeploy (some k) (initState pn)).deployedUrl = none
      ∧ ((handleDeploy (some k) (initState pn)).steps.all
          fun t => !(t.status == StepStatus.error)) = true :=
  of_decide_eq_true rfl

/-- C8: in every run the sequence of stage-status snapshots starts all
`idle` and every change between consecutive snapshots is a single-stage
transition `idle → loading` or `loading → success` taken while all
earlier stages are `success` and all later stages are `idle`.  Hence each
stage passes through `loading` before any terminal status, no stage is
entered twice, and a later stage's transition never precedes an earlier
stage's terminal transition. -/
theorem c8_ordered_transitions (pn : String) :
    ∀ fault : Option (Fin 9),
      ((runTrace fault (initState pn)).map statusesOf).head?
        = some [StepStatus.idle, StepStatus.idle, StepStatus.idle,
                StepStatus.idle, StepStatus.idle]
      ∧ chainOk ((runTrace fault (initState pn)).map statusesOf) = true :=
  of_decide_eq_true rfl

/-- C9: during every run — from the reset that clears the log to the
terminal state — each observable log list extends the previous one (the
log is append-only: lengths never decrease and existing entries are never
mutated), and every observable state in which some stage has reached a
terminal status has a non-empty log. -/
theorem c9_log_append_only (pn : String) (fault : Option (Fin 9)) :
    List.Chain' (fun a b => a.logs <+: b.logs) (runTrace fault (initState pn))
    ∧ ((runTrace fault (initState pn)).all fun s =>
        !(s.steps.any fun t =>
            t.status == StepStatus.success || t.status == StepStatus.error)
          || decide (0 < s.logs.length)) = true := by
  refine ⟨chain_logs_scanl _ _, ?_⟩
  have h : ∀ f : Option (Fin 9),
      ((runTrace f (initState pn)).all fun s =>
        !(s.steps.any fun t =>
            t.status == StepStatus.success || t.status == StepStatus.error)
          || decide (0 < s.logs.length)) = true :=
    of_decide_eq_true rfl
  exact h fault

/-- C10: the input-boundary normalization lowercases the raw project name
and replaces every maximal whitespace run with one hyphen; the input
`"My App"` yields `"my-app"`; the normalized name contains no whitespace;
and a successful run started after entering a raw name produces exactly
`https://<normalized name>.vercel.app` as its result. -/
theorem c10_normalization (raw : String) :
    normalizeName "My App" = "my-app"
    ∧ ((normalizeName raw).data.all fun c => !isWs c) = true
    ∧ (handleDeploy none (onProjectNameInput raw (initState ""))).deployedUrl
        = some ("https://" ++ normalizeName raw ++ ".vercel.app") :=
  ⟨of_decide_eq_true rfl, collapseWs_no_ws _ false, rfl⟩

end AutoDeployer
